import Mathlib

/-!
# Verification of the `scansector` save-file extraction pipeline

A shallow embedding of `src/main.rs` of the `scansector` repository:
the save-file loader (`load_save`), the location parser (`parse_vector`),
the shared object-extraction routine (`extract_object`), and the slice of
UI state that consumes the extracted model (`ScanSectorUi::update`).

Machine floating-point values are modelled by exact rationals together
with the non-finite values (`inf`, `-inf`, `nan`); every numeric literal
appearing in the verified properties is exactly representable in binary
floating point, so no rounding behaviour is relied upon.

External dependencies of the crate (the XML tree of `roxmltree`, the
`json` crate's value type and parser, and `str::parse::<f64>` from the
Rust standard library) are embedded from their documented input/output
behaviour, since their sources are not part of this repository.
-/

/-- Result of Rust's `str::parse::<f64>`: either a finite value (modelled
exactly as a rational; rounding to binary and overflow to infinity of huge
literals are not modelled) or one of the non-finite values. -/
inductive F64 where
  | finite (val : ℚ)
  | inf
  | negInf
  | nan
deriving DecidableEq, Repr

/-- Decimal digit test, `'0' <= c <= '9'`. -/
def isDig (c : Char) : Bool := '0' ≤ c && c ≤ '9'

/-- Value of one decimal digit. -/
def digVal (c : Char) : ℕ := c.toNat - '0'.toNat

/-- Value of a decimal digit string, most significant digit first. -/
def digitsToNat (ds : List Char) : ℕ := ds.foldl (fun a c => 10 * a + digVal c) 0

/-- `10 ^ n` on the naturals. -/
def pow10 (n : ℕ) : ℕ := Nat.pow 10 n

/-- The exact rational value `±mantissa × 10 ^ e` denoted by a decimal literal
with digit value `mantissa`, decimal exponent `e` and sign `neg`. -/
def decValue (neg : Bool) (mantissa : ℕ) (e : ℤ) : ℚ :=
  let n : ℤ := if neg then Int.neg (Int.ofNat mantissa) else Int.ofNat mantissa
  match e with
  | Int.ofNat k => mkRat (n.mul (Int.ofNat (pow10 k))) 1
  | Int.negSucc k => mkRat n (pow10 (k + 1))

/-- Parse the optional exponent suffix of a float literal
(`('e'|'E') sign? digit+` or nothing), per the documented grammar of
Rust's `f64::from_str`.  Returns the exponent, `0` when absent. -/
def parseExpPart : List Char → Option ℤ
  | [] => some 0
  | e :: rest =>
    if e == 'e' || e == 'E' then
      let (sgn, rest') : ℤ × List Char :=
        match rest with
        | '+' :: r => (1, r)
        | '-' :: r => (-1, r)
        | r => (1, r)
      let ds := rest'.takeWhile isDig
      let tail := rest'.dropWhile isDig
      if ds.isEmpty || !tail.isEmpty then none
      else some (sgn.mul (Int.ofNat (digitsToNat ds)))
    else none

/-- Parse the number part of a float literal (after the optional sign):
`digit+ ('.' digit*)? exp?  |  digit* '.' digit+ exp?`, per the documented
grammar of Rust's `f64::from_str`.  The value is the exact rational denoted
by the literal: the digits with the dot removed, scaled by ten to the
exponent minus the number of fraction digits. -/
def parseNumberPart (neg : Bool) (s : List Char) : Option ℚ :=
  let ip := s.takeWhile isDig
  let r1 := s.dropWhile isDig
  match r1 with
  | '.' :: r2 =>
    let fp := r2.takeWhile isDig
    let r3 := r2.dropWhile isDig
    if ip.isEmpty && fp.isEmpty then none
    else (parseExpPart r3).map fun e =>
      decValue neg (digitsToNat ip * pow10 fp.length + digitsToNat fp)
        (e.sub (Int.ofNat fp.length))
  | r2 =>
    if ip.isEmpty then none
    else (parseExpPart r2).map fun e => decValue neg (digitsToNat ip) e

/-- Embedding of Rust's `str::parse::<f64>` (`f64::from_str`), following its
documented grammar: an optional sign, then either a case-insensitive
`inf`/`infinity`/`nan` keyword or a decimal number with optional fraction and
exponent.  The whole string must be consumed; the empty string fails. -/
def parseF64 (s : String) : Option F64 :=
  match s.data with
  | [] => none
  | cs =>
    let (neg, body) : Bool × List Char :=
      match cs with
      | '+' :: r => (false, r)
      | '-' :: r => (true, r)
      | r => (false, r)
    let lower := body.map Char.toLower
    if lower = "inf".data || lower = "infinity".data then
      some (if neg then F64.negInf else F64.inf)
    else if lower = "nan".data then some F64.nan
    else (parseNumberPart neg body).map F64.finite

/-- Embedding of Rust's `str::split(|b| b == '|')` on the underlying character
list: splits at every `'|'`, keeping empty fields, and yields at least one
(possibly empty) field even for the empty input, exactly as the `Split`
iterator does. -/
def splitPipe : List Char → List (List Char)
  | [] => [[]]
  | c :: rest =>
    if c = '|' then [] :: splitPipe rest
    else
      match splitPipe rest with
      | s :: ss => (c :: s) :: ss
      | [] => [[c]]

/-- `Position` from `src/main.rs`: a pair of floating-point coordinates. -/
structure Position where
  x : F64
  y : F64
deriving DecidableEq, Repr

/-- `parse_vector` from `src/main.rs` (lines 59-64): split the text on `'|'`,
parse the first two fields as floats (any further fields are never requested
from the iterator), and fail if either of the first two fields is missing or
does not parse. -/
def parse_vector (v : String) : Option Position :=
  let parts := splitPipe v.data
  match parts.head? with
  | none => none
  | some xs =>
  match parseF64 (String.mk xs) with
  | none => none
  | some x =>
  match (parts.drop 1).head? with
  | none => none
  | some ys =>
  match parseF64 (String.mk ys) with
  | none => none
  | some y => some { x := x, y := y }

/-- JSON values as produced by the external `json` crate: the crate's two
string representations (`Short` and `String`) are collapsed into one `str`
constructor, numbers are carried as exact rationals, and an object keeps its
entries in insertion order. -/
inductive JsonValue where
  | null
  | boolean (b : Bool)
  | num (q : ℚ)
  | str (s : String)
  | arr (elems : List JsonValue)
  | obj (entries : List (String × JsonValue))

/-- `JsonValue::entries()` of the `json` crate: the key/value entries of an
object in insertion order, and the empty sequence for every non-object. -/
def jsonEntries : JsonValue → List (String × JsonValue)
  | JsonValue.obj es => es
  | _ => []

/-- `JsonValue::as_str()` of the `json` crate: `Some` exactly for string
values. -/
def jsonAsStr : JsonValue → Option String
  | JsonValue.str s => some s
  | _ => none

/-- JSON insignificant whitespace. -/
def jsonWs (c : Char) : Bool := c == ' ' || c == '\t' || c == '\n' || c == '\r'

/-- Drop leading JSON whitespace. -/
def skipWs (s : List Char) : List Char := s.dropWhile jsonWs

/-- Value of one hexadecimal digit. -/
def hexVal (c : Char) : Option ℕ :=
  if isDig c then some (digVal c)
  else if 'a' ≤ c ∧ c ≤ 'f' then some (c.toNat - 'a'.toNat + 10)
  else if 'A' ≤ c ∧ c ≤ 'F' then some (c.toNat - 'A'.toNat + 10)
  else none

/-- Value of a four-digit hexadecimal escape. -/
def hex4 (a b c d : Char) : Option ℕ := do
  let x ← hexVal a
  let y ← hexVal b
  let z ← hexVal c
  let w ← hexVal d
  pure (((x * 16 + y) * 16 + z) * 16 + w)

/-- Parse the body of a JSON string (the opening quote already consumed) up to
and including the closing quote, decoding the escape sequences, including
`\uXXXX` with surrogate-pair combination; a lone surrogate fails.  Returns the
decoded characters and the input remaining after the closing quote. -/
def parseJStr : List Char → Option (List Char × List Char)
  | [] => none
  | '"' :: r => some ([], r)
  | '\\' :: r =>
    match r with
    | [] => none
    | e :: r2 =>
      if e = '"' then (parseJStr r2).map fun p => ('"' :: p.1, p.2)
      else if e = '\\' then (parseJStr r2).map fun p => ('\\' :: p.1, p.2)
      else if e = '/' then (parseJStr r2).map fun p => ('/' :: p.1, p.2)
      else if e = 'b' then (parseJStr r2).map fun p => ('\x08' :: p.1, p.2)
      else if e = 'f' then (parseJStr r2).map fun p => ('\x0C' :: p.1, p.2)
      else if e = 'n' then (parseJStr r2).map fun p => ('\n' :: p.1, p.2)
      else if e = 'r' then (parseJStr r2).map fun p => ('\r' :: p.1, p.2)
      else if e = 't' then (parseJStr r2).map fun p => ('\t' :: p.1, p.2)
      else if e = 'u' then
        match r2 with
        | a :: b :: c :: d :: r3 =>
          match hex4 a b c d with
          | none => none
          | some n =>
            if 0xD800 ≤ n ∧ n ≤ 0xDBFF then
              match r3 with
              | '\\' :: 'u' :: a2 :: b2 :: c2 :: d2 :: r4 =>
                match hex4 a2 b2 c2 d2 with
                | some m =>
                  if 0xDC00 ≤ m ∧ m ≤ 0xDFFF then
                    (parseJStr r4).map fun p =>
                      (Char.ofNat (0x10000 + (n - 0xD800) * 0x400 + (m - 0xDC00)) :: p.1, p.2)
                  else none
                | none => none
              | _ => none
            else if 0xDC00 ≤ n ∧ n ≤ 0xDFFF then none
            else (parseJStr r3).map fun p => (Char.ofNat n :: p.1, p.2)
        | _ => none
      else none
  | c :: r => (parseJStr r).map fun p => (c :: p.1, p.2)

/-- Parse the optional fraction part of a JSON number: either nothing or a dot
followed by at least one digit. -/
def parseJFrac : List Char → Option (List Char × List Char)
  | '.' :: r =>
    let ds := r.takeWhile isDig
    if ds.isEmpty then none else some (ds, r.dropWhile isDig)
  | r => some ([], r)

/-- Parse the optional exponent part of a JSON number. -/
def parseJExp : List Char → Option (ℤ × List Char)
  | [] => some (0, [])
  | c :: r =>
    if c == 'e' || c == 'E' then
      let (sgn, r1) : ℤ × List Char :=
        match r with
        | '+' :: t => (1, t)
        | '-' :: t => (-1, t)
        | t => (1, t)
      let ds := r1.takeWhile isDig
      if ds.isEmpty then none
      else some (sgn.mul (Int.ofNat (digitsToNat ds)), r1.dropWhile isDig)
    else some (0, c :: r)

/-- Parse a JSON number (`-? int frac? exp?` with `int` being `0` or a digit
string without a leading zero), returning its exact rational value and the
remaining input. -/
def parseJNum (s : List Char) : Option (ℚ × List Char) :=
  let (neg, s1) : Bool × List Char :=
    match s with
    | '-' :: r => (true, r)
    | r => (false, r)
  match s1 with
  | '0' :: r => do
    let (fp, r3) ← parseJFrac r
    let (e, r4) ← parseJExp r3
    pure (decValue neg (digitsToNat fp) (e.sub (Int.ofNat fp.length)), r4)
  | _ =>
    let ip := s1.takeWhile isDig
    let r2 := s1.dropWhile isDig
    if ip.isEmpty then none
    else do
      let (fp, r3) ← parseJFrac r2
      let (e, r4) ← parseJExp r3
      pure (decValue neg (digitsToNat ip * pow10 fp.length + digitsToNat fp)
        (e.sub (Int.ofNat fp.length)), r4)

/-- Consume an expected literal character sequence. -/
def dropLit : List Char → List Char → Option (List Char)
  | [], r => some r
  | l :: ls, c :: r => if c = l then dropLit ls r else none
  | _ :: _, [] => none

/-- `Object::insert` of the `json` crate: overwrite the value of an existing
key in place, otherwise append the new entry. -/
def objInsert (es : List (String × JsonValue)) (k : String) (v : JsonValue) :
    List (String × JsonValue) :=
  if es.any fun e => e.1 == k then es.map fun e => if e.1 == k then (k, v) else e
  else es ++ [(k, v)]

mutual

/-- Parse one JSON value starting at the given (whitespace-free) position.
Fuel-indexed recursion; the fuel chosen in `jsonParse` is large enough for
every input. -/
def parseJValue : ℕ → List Char → Option (JsonValue × List Char)
  | 0, _ => none
  | fuel + 1, s =>
    match s with
    | '"' :: r => (parseJStr r).map fun p => (JsonValue.str (String.mk p.1), p.2)
    | '\x7b' :: r => parseJMembers fuel [] (skipWs r)
    | '[' :: r => parseJElems fuel [] (skipWs r)
    | 't' :: r => (dropLit "rue".data r).map fun rest => (JsonValue.boolean true, rest)
    | 'f' :: r => (dropLit "alse".data r).map fun rest => (JsonValue.boolean false, rest)
    | 'n' :: r => (dropLit "ull".data r).map fun rest => (JsonValue.null, rest)
    | _ => (parseJNum s).map fun p => (JsonValue.num p.1, p.2)

/-- Parse the members of a JSON object after `{` (whitespace already
skipped), accumulating into `acc` with `objInsert`. -/
def parseJMembers : ℕ → List (String × JsonValue) → List Char →
    Option (JsonValue × List Char)
  | 0, _, _ => none
  | fuel + 1, acc, s =>
    match s with
    | '\x7d' :: r => some (JsonValue.obj acc, r)
    | '"' :: r =>
      match parseJStr r with
      | none => none
      | some (key, r2) =>
        match skipWs r2 with
        | ':' :: r3 =>
          match parseJValue fuel (skipWs r3) with
          | none => none
          | some (v, r4) => parseJMembersTail fuel (objInsert acc (String.mk key) v) (skipWs r4)
        | _ => none
    | _ => none

/-- After one object member: either a comma and another member, or `}`. -/
def parseJMembersTail : ℕ → List (String × JsonValue) → List Char →
    Option (JsonValue × List Char)
  | 0, _, _ => none
  | fuel + 1, acc, s =>
    match s with
    | '\x7d' :: r => some (JsonValue.obj acc, r)
    | ',' :: r =>
      match skipWs r with
      | '"' :: r1 =>
        match parseJStr r1 with
        | none => none
        | some (key, r2) =>
          match skipWs r2 with
          | ':' :: r3 =>
            match parseJValue fuel (skipWs r3) with
            | none => none
            | some (v, r4) => parseJMembersTail fuel (objInsert acc (String.mk key) v) (skipWs r4)
          | _ => none
      | _ => none
    | _ => none

/-- Parse the elements of a JSON array after `[` (whitespace already
skipped). -/
def parseJElems : ℕ → List JsonValue → List Char → Option (JsonValue × List Char)
  | 0, _, _ => none
  | fuel + 1, acc, s =>
    match s with
    | ']' :: r => some (JsonValue.arr acc, r)
    | _ =>
      match parseJValue fuel s with
      | none => none
      | some (v, r) => parseJElemsTail fuel (acc ++ [v]) (skipWs r)

/-- After one array element: either a comma and another element, or `]`. -/
def parseJElemsTail : ℕ → List JsonValue → List Char → Option (JsonValue × List Char)
  | 0, _, _ => none
  | fuel + 1, acc, s =>
    match s with
    | ']' :: r => some (JsonValue.arr acc, r)
    | ',' :: r =>
      match parseJValue fuel (skipWs r) with
      | none => none
      | some (v, r2) => parseJElemsTail fuel (acc ++ [v]) (skipWs r2)
    | _ => none

end

/-- Embedding of `json::parse` of the `json` crate: parse one JSON document
(any JSON value at top level), allowing surrounding whitespace and rejecting
trailing input.  The fuel bound `2 * length + 4` exceeds the number of parser
steps possible on the input, since at least one character is consumed between
every second step. -/
def jsonParse (s : String) : Option JsonValue :=
  match parseJValue (2 * s.data.length + 4) (skipWs s.data) with
  | some (v, rest) => if (skipWs rest).isEmpty then some v else none
  | none => none

/-- The name lookup of `extract_object` (`src/main.rs` lines 76-81): the first
top-level entry of the parsed payload whose key is `f0`, which must be a
string. -/
def jsonName (v : JsonValue) : Option String :=
  ((jsonEntries v).find? fun e => e.1 == "f0").bind fun entry => jsonAsStr entry.2

/-- The parsed XML tree exposed by `roxmltree`: an element node with its local
tag name, attribute list and children, or a text node.  (Comment and
processing-instruction nodes, which no extraction step can select, are not
modelled.) -/
inductive XmlNode where
  | element (tag : String) (attrs : List (String × String)) (children : List XmlNode)
  | text (content : String)

mutual

/-- `Node::descendants()` of `roxmltree`: the node itself followed by all of
its descendants in document order (pre-order). -/
def descendants : XmlNode → List XmlNode
  | XmlNode.element t a cs => XmlNode.element t a cs :: descendantsList cs
  | XmlNode.text s => [XmlNode.text s]

/-- Descendants of a list of siblings, in document order. -/
def descendantsList : List XmlNode → List XmlNode
  | [] => []
  | n :: ns => descendants n ++ descendantsList ns

end

/-- `node.tag_name().name()` of `roxmltree`: the local tag name of an element;
the empty string for non-element nodes. -/
def tagName : XmlNode → String
  | XmlNode.element t _ _ => t
  | XmlNode.text _ => ""

/-- `node.attribute(k)` of `roxmltree`: the value of the attribute named `k`,
if present (well-formed XML never repeats an attribute name). -/
def attr (n : XmlNode) (k : String) : Option String :=
  match n with
  | XmlNode.element _ attrs _ => (attrs.find? fun p => p.1 == k).map fun p => p.2
  | XmlNode.text _ => none

/-- `node.text()` of `roxmltree`: the content of a text node, or the content
of an element's first child when that child is a text node. -/
def nodeText : XmlNode → Option String
  | XmlNode.element _ _ (XmlNode.text s :: _) => some s
  | XmlNode.element _ _ _ => none
  | XmlNode.text s => some s

/-- `Object` from `src/main.rs`: one in-system entity. -/
structure Object where
  name : String
  planet : Bool
  pos : Position
  mission : Bool
deriving DecidableEq, Repr

/-- `System` from `src/main.rs`: one star system and its objects.  (Named
`StarSystem` here only because `System` collides with a core Lean
namespace.) -/
structure StarSystem where
  name : String
  objects : List Object
deriving DecidableEq, Repr

/-- `extract_object` from `src/main.rs` (lines 66-86): find the first `loc`
descendant and parse its text as a position, note whether any descendant is
tagged `MReq`, find the first `j0` descendant, parse its text as JSON, and
take as name the string value of the first entry with key `f0`; each `?`
operator of the Rust code becomes an `Option.bind`, so any failing step makes
the whole extraction return nothing. -/
def extract_object (node : XmlNode) : Option Object :=
  ((descendants node).find? fun n => tagName n == "loc").bind fun locNode =>
  (nodeText locNode).bind fun locTxt =>
  (parse_vector locTxt).bind fun loc =>
  ((descendants node).find? fun n => tagName n == "j0").bind fun whatNode =>
  (nodeText whatNode).bind fun whatTxt =>
  (jsonParse whatTxt).bind fun what =>
  (jsonName what).map fun name =>
    { name := name, planet := false, pos := loc,
      mission := (descendants node).any fun n => tagName n == "MReq" }

/-- The `planet.planet = true` mutation applied to each extracted planet in
`load_save` (line 43). -/
def set_planet (o : Object) : Object := { o with planet := true }

/-- The loop shape shared by the three extraction loops of `load_save`:
`for n in iter.filter(p) { let Some(o) = f(n) else continue; out.push(o) }`,
walking the sequence left to right with the pushed-to vector as
accumulator. -/
def pushLoop {α β : Type _} (p : α → Bool) (f : α → Option β) : List α → List β → List β
  | [], acc => acc
  | n :: l, acc =>
    pushLoop p f l
      (if p n then
        match f n with
        | some o => acc ++ [o]
        | none => acc
      else acc)

/-- The object list built for one system node by the two loops of `load_save`
(lines 41-50): push every extractable `Plnt` descendant (with its planet flag
set), then push every extractable `CCEnt` descendant. -/
def extract_objects (sys : XmlNode) : List Object :=
  let withPlanets :=
    pushLoop (fun n => tagName n == "Plnt") (fun n => (extract_object n).map set_planet)
      (descendants sys) []
  pushLoop (fun n => tagName n == "CCEnt") extract_object (descendants sys) withPlanets

/-- The planet group of a system's object list: the extractable `Plnt`
descendants in document order, marked as planets. -/
def plnt_objects (sys : XmlNode) : List Object :=
  ((descendants sys).filter fun n => tagName n == "Plnt").filterMap
    fun n => (extract_object n).map set_planet

/-- The generic-entity group of a system's object list: the extractable
`CCEnt` descendants in document order. -/
def ent_objects (sys : XmlNode) : List Object :=
  ((descendants sys).filter fun n => tagName n == "CCEnt").filterMap extract_object

/-- The system built from one `Sstm` node by `load_save` (lines 35-39): the
`bN` attribute is required (`let Some(name) = sys.attribute("bN") else
continue`); its verbatim value, possibly empty, becomes the system name. -/
def extract_system (sys : XmlNode) : Option StarSystem :=
  match attr sys "bN" with
  | none => none
  | some name => some { name := name, objects := extract_objects sys }

/-- The system list built by the main loop of `load_save` (lines 34-52): every
`Sstm`-tagged descendant of the document with a `bN` attribute contributes one
system, in document order. -/
def extract_systems (doc : XmlNode) : List StarSystem :=
  pushLoop (fun n => tagName n == "Sstm") extract_system (descendants doc) []

/-- Lexicographic order on character lists by code point.  This is the
comparison behind Rust's `Ord` for `String`: Rust compares the UTF-8 bytes
lexicographically, and byte-wise order of UTF-8 encodings coincides with
code-point-wise order of the character sequences. -/
def strLeB : List Char → List Char → Bool
  | [], _ => true
  | _ :: _, [] => false
  | c :: cs, d :: ds =>
    if c.toNat < d.toNat then true
    else if d.toNat < c.toNat then false
    else strLeB cs ds

/-- The key comparison used by `systems.sort_unstable_by_key(|s|
s.name.clone())` (line 54): ordering by the name key. -/
def systemLe (a b : StarSystem) : Prop := strLeB a.name.data b.name.data = true

instance : DecidableRel systemLe := fun a b => (strLeB a.name.data b.name.data).decEq true

/-- The sort applied by `load_save` (line 54).  Rust's `sort_unstable_by_key`
promises some permutation sorted by the key and explicitly does not promise a
tie order; it is realised here by an executable comparison sort, and no
theorem below relies on how this realisation orders equal keys. -/
def sortByName (l : List StarSystem) : List StarSystem := List.insertionSort systemLe l

/-- Outcome of `std::fs::read_to_string` at the start of `load_save`
(line 30). -/
inductive ReadResult where
  | ok (content : String)
  | ioError (msg : String)

/-- Outcome of `roxmltree::Document::parse` (line 31), an external parser: a
document tree for well-formed XML, an error otherwise. -/
inductive ParseResult where
  | ok (doc : XmlNode)
  | parseError (msg : String)

/-- How a call of `load_save` can end.  `panicked` records that the function
tears down the process instead of returning: line 31 unwraps the XML parse
result, so a parse error is a panic, not a returned error.  Only the I/O
error of line 30 is propagated with `?` as a returned error value. -/
inductive LoadOutcome where
  | ok (systems : List StarSystem)
  | ioError (msg : String)
  | panicked

/-- `load_save` from `src/main.rs` (lines 29-57), as a function of the file
read outcome and of the external XML parser's verdict on the content. -/
def load_save (read : ReadResult) (parseXml : String → ParseResult) : LoadOutcome :=
  match read with
  | ReadResult.ioError e => LoadOutcome.ioError e
  | ReadResult.ok content =>
    match parseXml content with
    | ParseResult.parseError _ => LoadOutcome.panicked
    | ParseResult.ok doc => LoadOutcome.ok (sortByName (extract_systems doc))

/-- The fields of `ScanSectorUi` that the load path touches (message, system
list, selected index). -/
structure ScanSectorUi where
  message : Option String
  systems : List StarSystem
  selected : ℕ
deriving DecidableEq, Repr

/-- The state update performed by `ScanSectorUi::update` when a picked file
has been loaded (lines 125-135): on success the system list is replaced and
the message cleared, on an I/O error only the message is set; the selected
index is not touched in either branch.  A panic in `load_save` propagates out
of `update`, so no successor state exists (`none`). -/
def applyLoad (st : ScanSectorUi) (outcome : LoadOutcome) : Option ScanSectorUi :=
  match outcome with
  | LoadOutcome.ok systems => some { st with systems := systems, message := none }
  | LoadOutcome.ioError e => some { st with message := some e }
  | LoadOutcome.panicked => none

/-- In-bounds condition for the central panel of `ScanSectorUi::update`
(lines 159-188): when the system list is non-empty it is indexed by
`self.selected` (line 168 and line 187), which panics unless the index is
below the length. -/
def selectedIndexOk (st : ScanSectorUi) : Prop :=
  st.systems ≠ [] → st.selected < st.systems.length

/-! ## Concrete fixtures used by witnesses and counterexamples -/

/-- An external-parser behaviour that rejects every content, as `roxmltree`
does on bytes that are not well-formed XML. -/
def rejectingParse : String → ParseResult :=
  fun _ => ParseResult.parseError "the root node was opened but never closed"

/-- Classifier: the load ended in a returned error value. -/
def isReturnedError : LoadOutcome → Bool
  | LoadOutcome.ioError _ => true
  | _ => false

/-- Classifier: the load ended in a panic instead of returning. -/
def isPanic : LoadOutcome → Bool
  | LoadOutcome.panicked => true
  | _ => false

/-- A system without objects named `Alpha`. -/
def sysAlpha : StarSystem := { name := "Alpha", objects := [] }

/-- A system without objects named `Beta`. -/
def sysBeta : StarSystem := { name := "Beta", objects := [] }

/-- A system without objects named `Kepler`. -/
def sysKepler : StarSystem := { name := "Kepler", objects := [] }

/-- A document whose single system record carries an empty name attribute. -/
def emptyNameDoc : XmlNode := XmlNode.element "Sstm" [("bN", "")] []

/-- A document with three system records named `Kepler`, `Alpha`, `Beta`, in
that document order. -/
def docThree : XmlNode :=
  XmlNode.element "CampaignEngine" []
    [XmlNode.element "Sstm" [("bN", "Kepler")] [],
     XmlNode.element "Sstm" [("bN", "Alpha")] [],
     XmlNode.element "Sstm" [("bN", "Beta")] []]

/-- A generic-entity record (with mission marker) whose location and payload
decode. -/
def entDerelict : XmlNode :=
  XmlNode.element "CCEnt" []
    [XmlNode.element "loc" [] [XmlNode.text "500|-500"],
     XmlNode.element "j0" [] [XmlNode.text "\x7b\"f0\": \"Derelict Station\"\x7d"],
     XmlNode.element "MReq" [] []]

/-- A planet record whose location and payload decode. -/
def plntCorvusIII : XmlNode :=
  XmlNode.element "Plnt" []
    [XmlNode.element "loc" [] [XmlNode.text "0|0"],
     XmlNode.element "j0" [] [XmlNode.text "\x7b\"f0\": \"Corvus III\"\x7d"]]

/-- A system record in which the generic entity precedes the planet in
document order. -/
def sstmCorvus : XmlNode :=
  XmlNode.element "Sstm" [("bN", "Corvus")] [entDerelict, plntCorvusIII]

/-- A document holding `sstmCorvus`. -/
def docCorvus : XmlNode := XmlNode.element "CampaignEngine" [] [sstmCorvus]

/-- The object extracted from `plntCorvusIII`, after the planet flag is set. -/
def corvusIII : Object :=
  { name := "Corvus III", planet := true,
    pos := { x := F64.finite 0, y := F64.finite 0 }, mission := false }

/-- The object extracted from `entDerelict`. -/
def derelict : Object :=
  { name := "Derelict Station", planet := false,
    pos := { x := F64.finite (mkRat 500 1), y := F64.finite (mkRat (-500) 1) },
    mission := true }

/-- The system extracted from `sstmCorvus`: the planet first, although the
entity precedes it in the document. -/
def sysCorvus : StarSystem := { name := "Corvus", objects := [corvusIII, derelict] }

/-- An entity record whose location text has only one field. -/
def badLocNode : XmlNode :=
  XmlNode.element "CCEnt" [] [XmlNode.element "loc" [] [XmlNode.text "123.5"]]

/-- An entity record whose payload has no `f0` entry. -/
def noNameNode : XmlNode :=
  XmlNode.element "CCEnt" []
    [XmlNode.element "loc" [] [XmlNode.text "1|2"],
     XmlNode.element "j0" [] [XmlNode.text "\x7b\"g1\": \"X\"\x7d"]]

/-- A system record whose only candidate object has no location and is
therefore dropped. -/
def sstmLonely : XmlNode :=
  XmlNode.element "Sstm" [("bN", "Lonely")] [XmlNode.element "Plnt" [] []]

/-- A document holding `sstmLonely`. -/
def docLonely : XmlNode := XmlNode.element "CampaignEngine" [] [sstmLonely]

/-! ## General lemmas about the extraction pipeline -/

/-- A filtering push-loop (`for x in iter.filter(p) { let Some(y) = f(x) else
continue; out.push(y) }`) computes the `filterMap` of the filtered input,
appended to the accumulator. -/
theorem pushLoop_eq {α β : Type _} (p : α → Bool) (f : α → Option β) :
    ∀ (l : List α) (acc : List β),
      pushLoop p f l acc = acc ++ (l.filter p).filterMap f := by
  intro l
  induction l with
  | nil => intro acc; simp [pushLoop]
  | cons x xs ih =>
    intro acc
    rw [pushLoop, ih, List.filter_cons]
    by_cases hp : p x
    · cases hf : f x with
      | none => simp [hp, hf]
      | some o => simp [hp, hf]
    · simp [hp]

/-- The object list of a system splits into the planet group followed by the
generic-entity group. -/
theorem extract_objects_split (sys : XmlNode) :
    extract_objects sys = plnt_objects sys ++ ent_objects sys := by
  unfold extract_objects plnt_objects ent_objects
  rw [pushLoop_eq, pushLoop_eq]
  simp

/-- The system list before sorting is the `filterMap` of the `Sstm`-tagged
descendants of the document, in document order. -/
theorem extract_systems_eq (doc : XmlNode) :
    extract_systems doc
      = ((descendants doc).filter fun n => tagName n == "Sstm").filterMap extract_system := by
  unfold extract_systems
  rw [pushLoop_eq]
  simp

/-- The names of extracted systems are exactly the `bN` attribute values of
the same nodes, in the same order. -/
theorem map_name_filterMap (l : List XmlNode) :
    (l.filterMap extract_system).map StarSystem.name = l.filterMap fun n => attr n "bN" := by
  induction l with
  | nil => rfl
  | cons x xs ih =>
    cases hx : attr x "bN" with
    | none => simp [List.filterMap_cons, extract_system, hx, ih]
    | some nm => simp [List.filterMap_cons, extract_system, hx, ih]

/-- Inversion for `extract_system`. -/
theorem extract_system_some_iff {sys : XmlNode} {s : StarSystem} :
    extract_system sys = some s
      ↔ attr sys "bN" = some s.name ∧ s.objects = extract_objects sys := by
  cases s with
  | mk nm objs =>
    cases hx : attr sys "bN" with
    | none => simp [extract_system, hx]
    | some v => simp [extract_system, hx, StarSystem.mk.injEq, eq_comm, and_comm]

/-- The sort of `load_save` permutes the extracted list. -/
theorem sortByName_perm (l : List StarSystem) : (sortByName l).Perm l :=
  List.perm_insertionSort _ l

/-- Sorting does not change membership. -/
theorem mem_sortByName {s : StarSystem} {l : List StarSystem} :
    s ∈ sortByName l ↔ s ∈ l :=
  (sortByName_perm l).mem_iff

/-- A successful load yields exactly the sorted extraction of the parsed
document. -/
theorem load_save_ok {parseXml : String → ParseResult} {content : String} {doc : XmlNode}
    {systems : List StarSystem}
    (hp : parseXml content = ParseResult.ok doc)
    (hl : load_save (ReadResult.ok content) parseXml = LoadOutcome.ok systems) :
    systems = sortByName (extract_systems doc) := by
  simp only [load_save, hp] at hl
  exact (LoadOutcome.ok.inj hl).symm

/-- Every object produced by `extract_object` carries `planet = false`; the
flag is only set afterwards by the planet loop. -/
theorem extract_object_planet_false {node : XmlNode} {o : Object}
    (h : extract_object node = some o) : o.planet = false := by
  unfold extract_object at h
  obtain ⟨locNode, -, h⟩ := Option.bind_eq_some.mp h
  obtain ⟨locTxt, -, h⟩ := Option.bind_eq_some.mp h
  obtain ⟨loc, -, h⟩ := Option.bind_eq_some.mp h
  obtain ⟨whatNode, -, h⟩ := Option.bind_eq_some.mp h
  obtain ⟨whatTxt, -, h⟩ := Option.bind_eq_some.mp h
  obtain ⟨what, -, h⟩ := Option.bind_eq_some.mp h
  obtain ⟨nm, -, rfl⟩ := Option.map_eq_some'.mp h
  rfl

/-- Members of the planet group are marked as planets. -/
theorem plnt_objects_planet {sys : XmlNode} {o : Object} (h : o ∈ plnt_objects sys) :
    o.planet = true := by
  unfold plnt_objects at h
  obtain ⟨n, -, hn⟩ := List.mem_filterMap.mp h
  obtain ⟨o', -, rfl⟩ := Option.map_eq_some'.mp hn
  rfl

/-- Members of the generic-entity group are not marked as planets. -/
theorem ent_objects_planet {sys : XmlNode} {o : Object} (h : o ∈ ent_objects sys) :
    o.planet = false := by
  unfold ent_objects at h
  obtain ⟨n, -, hn⟩ := List.mem_filterMap.mp h
  exact extract_object_planet_false hn

/-! ## The claims -/

/-- C1, counterexample: on bytes the XML parser rejects, `load_save` does not
fail with a returned error value at all — line 31 unwraps the parse result,
so the call panics. -/
theorem c1_counterexample :
    isReturnedError (load_save (ReadResult.ok "not xml at all") rejectingParse) = false
    ∧ isPanic (load_save (ReadResult.ok "not xml at all") rejectingParse) = true :=
  ⟨rfl, rfl⟩

/-- C1 (amended): for every input whose bytes are not well-formed XML,
`load_save` panics (the parse result is unwrapped, line 31) instead of
returning an error value; only a failed file read yields a returned error,
and that returned error only sets the message, leaving the previously loaded
system list (and the selection) unchanged. -/
theorem c1_parse_failure_panics (parseXml : String → ParseResult) (content msg : String)
    (st : ScanSectorUi) (e : String)
    (h : parseXml content = ParseResult.parseError msg) :
    load_save (ReadResult.ok content) parseXml = LoadOutcome.panicked
    ∧ applyLoad st (LoadOutcome.ioError e) = some { st with message := some e } := by
  constructor
  · simp only [load_save, h]
  · rfl

/-- C1, witness for the amended claim at a concrete rejected input. -/
theorem c1_parse_failure_panics_witness :
    load_save (ReadResult.ok "not xml at all") rejectingParse = LoadOutcome.panicked
    ∧ applyLoad { message := none, systems := [sysAlpha], selected := 0 }
        (LoadOutcome.ioError "No such file or directory (os error 2)")
      = some { message := some "No such file or directory (os error 2)",
               systems := [sysAlpha], selected := 0 } :=
  c1_parse_failure_panics rejectingParse "not xml at all"
    "the root node was opened but never closed"
    { message := none, systems := [sysAlpha], selected := 0 }
    "No such file or directory (os error 2)" rfl

/-- C2, code bug: a successful load replaces the system list (lines 127-130)
without resetting or clamping `selected`; with a previous selection of `1`
and a new single-system list, the central panel's indexing precondition
(line 168) is violated, so `self.systems[self.selected]` panics. -/
theorem c2_selected_not_clamped :
    applyLoad { message := none, systems := [sysAlpha, sysBeta], selected := 1 }
        (LoadOutcome.ok [sysKepler])
      = some { message := none, systems := [sysKepler], selected := 1 }
    ∧ ¬ selectedIndexOk { message := none, systems := [sysKepler], selected := 1 } := by
  constructor
  · rfl
  · intro hok
    have h2 := hok (by simp)
    exact absurd h2 (by decide)

/-- C4, counterexample: a system record whose `bN` attribute is the empty
string yields a `System` whose name is the empty string — only presence of
the attribute is checked (line 35), not non-emptiness. -/
theorem c4_counterexample :
    load_save (ReadResult.ok "<Sstm bN=\"\"/>") (fun _ => ParseResult.ok emptyNameDoc)
      = LoadOutcome.ok [{ name := "", objects := [] }]
    ∧ ("" : String).length = 0 :=
  ⟨rfl, rfl⟩

/-- C4 (amended): every `System` in the result takes its name verbatim from
the `bN` attribute of some `Sstm`-tagged node of the document; the value may
be the empty string, so names are not guaranteed non-empty. -/
theorem c4_name_is_attr_value (parseXml : String → ParseResult) (content : String)
    (doc : XmlNode) (systems : List StarSystem) (s : StarSystem)
    (hp : parseXml content = ParseResult.ok doc)
    (hl : load_save (ReadResult.ok content) parseXml = LoadOutcome.ok systems)
    (hs : s ∈ systems) :
    ∃ node ∈ descendants doc, tagName node = "Sstm" ∧ attr node "bN" = some s.name := by
  have hsys := load_save_ok hp hl
  subst hsys
  rw [mem_sortByName, extract_systems_eq] at hs
  obtain ⟨node, hmem, hsome⟩ := List.mem_filterMap.mp hs
  obtain ⟨hmem', htag⟩ := List.mem_filter.mp hmem
  exact ⟨node, hmem', by simpa using htag, (extract_system_some_iff.mp hsome).1⟩

/-- C4, witness for the amended claim on a concrete document. -/
theorem c4_name_is_attr_value_witness :
    ∃ node ∈ descendants docThree, tagName node = "Sstm"
      ∧ attr node "bN" = some sysKepler.name :=
  c4_name_is_attr_value (fun _ => ParseResult.ok docThree) "save" docThree
    [sysAlpha, sysBeta, sysKepler] sysKepler rfl rfl (by simp)

/-- C5: for every successfully parsed document, the names of the systems in
the load result are, up to the sort's permutation, exactly the `bN` attribute
values of the `Sstm`-tagged descendant nodes, in multiset terms: a node
without the attribute contributes no system, and every node with the
attribute contributes exactly one system with exactly that name. -/
theorem c5_names_exactly_attr_values (parseXml : String → ParseResult) (content : String)
    (doc : XmlNode) (systems : List StarSystem)
    (hp : parseXml content = ParseResult.ok doc)
    (hl : load_save (ReadResult.ok content) parseXml = LoadOutcome.ok systems) :
    (systems.map StarSystem.name).Perm
      (((descendants doc).filter fun n => tagName n == "Sstm").filterMap
        fun n => attr n "bN") := by
  have hsys := load_save_ok hp hl
  subst hsys
  refine ((sortByName_perm (extract_systems doc)).map StarSystem.name).trans ?_
  rw [extract_systems_eq, map_name_filterMap]

/-- C5, witness: the document with systems named `Kepler`, `Alpha`, `Beta`
loads to names that are a permutation of exactly those attribute values. -/
theorem c5_names_exactly_attr_values_witness :
    (["Alpha", "Beta", "Kepler"] : List String).Perm ["Kepler", "Alpha", "Beta"] :=
  c5_names_exactly_attr_values (fun _ => ParseResult.ok docThree) "save" docThree
    [sysAlpha, sysBeta, sysKepler] rfl rfl

/-- C6: every system of the load result is extracted from an `Sstm` node of
the document, and its object list is the planet group (document-order
extractable `Plnt` descendants, all marked `planet = true`) followed by the
generic-entity group (document-order extractable `CCEnt` descendants, all
with `planet = false`) — regardless of the relative document order of the two
kinds of records. -/
theorem c6_planets_precede_entities (parseXml : String → ParseResult) (content : String)
    (doc : XmlNode) (systems : List StarSystem) (s : StarSystem)
    (hp : parseXml content = ParseResult.ok doc)
    (hl : load_save (ReadResult.ok content) parseXml = LoadOutcome.ok systems)
    (hs : s ∈ systems) :
    ∃ node ∈ descendants doc, tagName node = "Sstm" ∧ attr node "bN" = some s.name
      ∧ s.objects = plnt_objects node ++ ent_objects node
      ∧ (∀ o ∈ plnt_objects node, o.planet = true)
      ∧ (∀ o ∈ ent_objects node, o.planet = false) := by
  have hsys := load_save_ok hp hl
  subst hsys
  rw [mem_sortByName, extract_systems_eq] at hs
  obtain ⟨node, hmem, hsome⟩ := List.mem_filterMap.mp hs
  obtain ⟨hmem', htag⟩ := List.mem_filter.mp hmem
  obtain ⟨hattr, hobj⟩ := extract_system_some_iff.mp hsome
  exact ⟨node, hmem', by simpa using htag, hattr,
    by rw [hobj, extract_objects_split],
    fun o ho => plnt_objects_planet ho,
    fun o ho => ent_objects_planet ho⟩

/-- C6, witness: in `docCorvus` the generic entity precedes the planet in
document order, yet the extracted object list of the loaded system places the
planet group first. -/
theorem c6_planets_precede_entities_witness :
    ∃ node ∈ descendants docCorvus, tagName node = "Sstm"
      ∧ attr node "bN" = some sysCorvus.name
      ∧ sysCorvus.objects = plnt_objects node ++ ent_objects node
      ∧ (∀ o ∈ plnt_objects node, o.planet = true)
      ∧ (∀ o ∈ ent_objects node, o.planet = false) :=
  c6_planets_precede_entities (fun _ => ParseResult.ok docCorvus) "save" docCorvus
    [sysCorvus] sysCorvus rfl rfl (by simp)

/-- C7: the location text `123.5|-67.0` parses to the position
`(123.5, -67.0)`; the text `123.5` (missing second field) and the text
`abc|def` (non-numeric fields) do not parse; and whenever the text of the
first `loc` descendant fails to parse, the containing object is excluded
(`extract_object` returns nothing — there is no defaulted position). -/
theorem c7_location_parsing :
    parse_vector "123.5|-67.0"
        = some { x := F64.finite (mkRat 247 2), y := F64.finite (mkRat (-67) 1) }
    ∧ parse_vector "123.5" = none
    ∧ parse_vector "abc|def" = none
    ∧ ∀ (node ln : XmlNode) (t : String),
        (descendants node).find? (fun n => tagName n == "loc") = some ln →
        nodeText ln = some t → parse_vector t = none → extract_object node = none := by
  refine ⟨by decide, by decide, by decide, ?_⟩
  intro node ln t h1 h2 h3
  unfold extract_object
  simp only [h1, Option.some_bind, h2, h3, Option.none_bind]

/-- C7, witness: a concrete entity whose location text is `123.5` is
excluded. -/
theorem c7_location_parsing_witness : extract_object badLocNode = none :=
  c7_location_parsing.2.2.2 badLocNode (XmlNode.element "loc" [] [XmlNode.text "123.5"])
    "123.5" rfl rfl rfl

/-- C8: every extracted object takes its name from the string value of the
first top-level `f0` entry of the JSON payload of the node's first `j0`
descendant; when that lookup yields nothing — which happens exactly when the
`f0` key is absent or its value is not a string — the object is excluded.
The payload `{"f0": "Hegemony Outpost"}` parses to an object whose `f0`
lookup yields `Hegemony Outpost`. -/
theorem c8_name_from_payload :
    (∀ (node : XmlNode) (o : Object), extract_object node = some o →
      ∃ jn : XmlNode, ∃ txt : String, ∃ v : JsonValue,
        (descendants node).find? (fun n => tagName n == "j0") = some jn
        ∧ nodeText jn = some txt ∧ jsonParse txt = some v ∧ jsonName v = some o.name)
    ∧ (∀ (node jn : XmlNode) (txt : String) (v : JsonValue),
        (descendants node).find? (fun n => tagName n == "j0") = some jn →
        nodeText jn = some txt → jsonParse txt = some v → jsonName v = none →
        extract_object node = none)
    ∧ (∀ v : JsonValue, jsonName v = none ↔
        ((jsonEntries v).find? (fun e => e.1 == "f0") = none
          ∨ ∃ entry, (jsonEntries v).find? (fun e => e.1 == "f0") = some entry
              ∧ jsonAsStr entry.2 = none))
    ∧ jsonParse "\x7b\"f0\": \"Hegemony Outpost\"\x7d"
        = some (JsonValue.obj [("f0", JsonValue.str "Hegemony Outpost")])
    ∧ jsonName (JsonValue.obj [("f0", JsonValue.str "Hegemony Outpost")])
        = some "Hegemony Outpost" := by
  refine ⟨?_, ?_, ?_, rfl, rfl⟩
  · intro node o h
    unfold extract_object at h
    obtain ⟨locNode, hloc, h⟩ := Option.bind_eq_some.mp h
    obtain ⟨locTxt, htxt, h⟩ := Option.bind_eq_some.mp h
    obtain ⟨loc, hpv, h⟩ := Option.bind_eq_some.mp h
    obtain ⟨jn, hjn, h⟩ := Option.bind_eq_some.mp h
    obtain ⟨txt, hjt, h⟩ := Option.bind_eq_some.mp h
    obtain ⟨v, hjp, h⟩ := Option.bind_eq_some.mp h
    obtain ⟨nm, hnm, rfl⟩ := Option.map_eq_some'.mp h
    exact ⟨jn, txt, v, hjn, hjt, hjp, hnm⟩
  · intro node jn txt v h1 h2 h3 h4
    unfold extract_object
    cases hloc : (descendants node).find? fun n => tagName n == "loc" with
    | none => rfl
    | some locNode =>
      simp only [Option.some_bind]
      cases htxt : nodeText locNode with
      | none => rfl
      | some t =>
        simp only [Option.some_bind]
        cases hpv : parse_vector t with
        | none => rfl
        | some pos =>
          simp only [Option.some_bind, h1, h2, h3, h4, Option.none_bind]
          rfl
  · intro v
    cases hf : (jsonEntries v).find? fun e => e.1 == "f0" with
    | none => simp [jsonName, hf]
    | some entry => simp [jsonName, hf]

/-- C8, witness: a concrete entity whose payload lacks the `f0` key is
excluded. -/
theorem c8_name_from_payload_witness : extract_object noNameNode = none :=
  c8_name_from_payload.2.1 noNameNode
    (XmlNode.element "j0" [] [XmlNode.text "\x7b\"g1\": \"X\"\x7d"])
    "\x7b\"g1\": \"X\"\x7d" (JsonValue.obj [("g1", JsonValue.str "X")])
    rfl rfl rfl rfl

/-- C9: every `Sstm`-tagged descendant node carrying a `bN` attribute
contributes a system to the load result — with exactly the object list its
subtree yields, which may be empty; the system is not filtered out for
lacking objects. -/
theorem c9_system_kept_without_objects (parseXml : String → ParseResult) (content : String)
    (doc node : XmlNode) (systems : List StarSystem) (nm : String)
    (hp : parseXml content = ParseResult.ok doc)
    (hl : load_save (ReadResult.ok content) parseXml = LoadOutcome.ok systems)
    (hnode : node ∈ descendants doc)
    (htag : tagName node = "Sstm")
    (hattr : attr node "bN" = some nm) :
    { name := nm, objects := extract_objects node } ∈ systems := by
  have hsys := load_save_ok hp hl
  subst hsys
  rw [mem_sortByName, extract_systems_eq]
  refine List.mem_filterMap.mpr ⟨node, List.mem_filter.mpr ⟨hnode, by simp [htag]⟩, ?_⟩
  exact extract_system_some_iff.mpr ⟨by simpa using hattr, rfl⟩

/-- C9, witness: the system `Lonely`, whose only candidate object is dropped
for lacking a location, still appears in the load result with an empty object
list. -/
theorem c9_system_kept_without_objects_witness :
    ({ name := "Lonely", objects := [] } : StarSystem)
      ∈ [({ name := "Lonely", objects := [] } : StarSystem)] :=
  c9_system_kept_without_objects (fun _ => ParseResult.ok docLonely) "save" docLonely
    sstmLonely [{ name := "Lonely", objects := [] }] "Lonely" rfl rfl
    (List.Mem.tail _ (List.Mem.head _)) rfl rfl

/-- C10 (implicit): the location parser accepts text with more than two
`|`-separated fields, using only the first two and ignoring the rest: for
every suffix, `1|2|` followed by that suffix parses to the position
`(1.0, 2.0)` rather than failing. -/
theorem c10_extra_fields_ignored (rest : String) :
    parse_vector ("1|2|" ++ rest)
      = some { x := F64.finite (mkRat 1 1), y := F64.finite (mkRat 2 1) } := rfl
